import Mathlib

/-!
Verification of the data-wrangling logic of the COVID-19 Vaccination
Dashboard (`app.py`).  The dataset is a table with one row per
(location, date); the script filters it by location and date range,
takes last rows as "latest", builds a top-10 ranking, and reshapes two
count columns into long form.  Each definition below is a direct
translation of the corresponding pandas expression in `app.py`.
-/

/-- A row of the cleaned vaccination dataset (`cleaned_vaccinations.parquet`).
Dates are modelled as ordinals (`Nat`), counts as `Int`, and the
per-hundred percentage as a rational. -/
structure Row where
  location : String
  iso_code : String
  date : Nat
  total_vaccinations : Int
  people_vaccinated : Int
  people_fully_vaccinated : Int
  total_boosters : Int
  people_fully_vaccinated_per_hundred : Rat
  daily_vaccinations : Int
deriving DecidableEq, Repr

/-- The eleven non-country aggregate names excluded from the country list
(`app.py` lines 32-34). -/
def non_country_aggregates : List String :=
  ["World", "Europe", "Asia", "Africa", "North America",
   "South America", "European Union", "High income",
   "Low income", "Lower middle income", "Upper middle income"]

/-- `location_to_filter` (`app.py` lines 56-59): the sidebar option
"Worldwide" is mapped to the dataset location "World". -/
def location_to_filter (selected_option : String) : String :=
  if selected_option = "Worldwide" then "World" else selected_option

/-- `filtered_df` (`app.py` lines 62-68): first select the rows whose
location equals `loc` (and `.copy()` the result), then keep the rows
whose date lies in `[start_date, end_date]`. -/
def filtered_df (df : List Row) (loc : String) (start_date end_date : Nat) : List Row :=
  let by_loc := df.filter (fun r => decide (r.location = loc))
  by_loc.filter (fun r => decide (start_date ≤ r.date ∧ r.date ≤ end_date))

theorem count_filter_eq {α : Type} [DecidableEq α] (p : α → Bool) (a : α) (l : List α) :
    List.count a (l.filter p) = if p a then List.count a l else 0 := by
  induction l with
  | nil => simp
  | cons x xs ih =>
    by_cases hx : p x
    · rw [List.filter_cons_of_pos hx]
      by_cases hax : x = a
      · subst hax
        simp [List.count_cons, ih, hx]
      · rw [List.count_cons_of_ne (fun h => hax h.symm),
          List.count_cons_of_ne (fun h => hax h.symm), ih]
    · rw [List.filter_cons_of_neg (by simpa using hx)]
      by_cases hax : x = a
      · subst hax
        simp [ih, hx]
      · rw [List.count_cons_of_ne (fun h => hax h.symm), ih]

/-- C1: the filtered table holds exactly the rows of the dataset whose
location equals the filter location and whose date lies in
`[start_date, end_date]` inclusive: membership is equivalent to the two
predicates, and each such row keeps its multiplicity while every other
row is absent. -/
theorem filtered_df_exact (df : List Row) (loc : String) (s e : Nat) (r : Row) :
    (r ∈ filtered_df df loc s e ↔ r ∈ df ∧ r.location = loc ∧ s ≤ r.date ∧ r.date ≤ e) ∧
    List.count r (filtered_df df loc s e) =
      (if r.location = loc ∧ s ≤ r.date ∧ r.date ≤ e then List.count r df else 0) := by
  constructor
  · unfold filtered_df
    simp only [List.mem_filter, decide_eq_true_eq]
    tauto
  · unfold filtered_df
    rw [count_filter_eq, count_filter_eq]
    by_cases h1 : r.location = loc <;>
      by_cases h2 : s ≤ r.date ∧ r.date ≤ e <;>
      simp [h1, h2]

/-- The data-model invariant stated by the spec: dates are monotonically
non-decreasing per location in the source file. -/
def dates_monotone_per_location (df : List Row) : Prop :=
  List.Pairwise (fun a b => a.location = b.location → a.date ≤ b.date) df

instance (df : List Row) : Decidable (dates_monotone_per_location df) :=
  List.instDecidablePairwise df

/-- `latest_data` (`app.py` line 79): `filtered_df.iloc[-1]`, the last row
of the (non-empty) filtered table. -/
def latest_data (fd : List Row) (h : fd ≠ []) : Row := fd.getLast h

theorem pairwise_date_le_getLast (l : List Row)
    (hl : l.Pairwise (fun a b => a.date ≤ b.date)) (h : l ≠ []) :
    ∀ r ∈ l, r.date ≤ (l.getLast h).date := by
  induction l with
  | nil => simp
  | cons x xs ih =>
    intro r hr
    rcases List.eq_nil_or_concat xs with hxs | _
    · subst hxs
      simp at hr
      simp [hr]
    · have hne : xs ≠ [] := by
        rintro rfl
        simp_all
      rw [List.getLast_cons hne]
      rcases List.mem_cons.mp hr with rfl | hr'
      · have hhead : ∀ b ∈ xs, r.date ≤ b.date := (List.pairwise_cons.mp hl).1
        exact hhead _ (List.getLast_mem hne)
      · exact ih (List.pairwise_cons.mp hl).2 hne r hr'

/-- C2: if dates are monotonically non-decreasing per location in the
source dataset, then on a non-empty filtered table the latest-row
selection (`iloc[-1]`) returns a row of the table whose date is maximal
over all rows in range. -/
theorem latest_data_max_date (df : List Row) (loc : String) (s e : Nat)
    (hmono : dates_monotone_per_location df)
    (h : filtered_df df loc s e ≠ []) :
    latest_data (filtered_df df loc s e) h ∈ filtered_df df loc s e ∧
    ∀ r ∈ filtered_df df loc s e,
      r.date ≤ (latest_data (filtered_df df loc s e) h).date := by
  refine ⟨List.getLast_mem h, ?_⟩
  have hsub : (filtered_df df loc s e).Sublist df := by
    unfold filtered_df
    exact (List.filter_sublist _).trans (List.filter_sublist _)
  have hpw : (filtered_df df loc s e).Pairwise
      (fun a b => a.location = b.location → a.date ≤ b.date) :=
    hmono.sublist hsub
  have hloc : ∀ r ∈ filtered_df df loc s e, r.location = loc := by
    intro r hr
    exact ((filtered_df_exact df loc s e r).1.mp hr).2.1
  have hpw' : (filtered_df df loc s e).Pairwise (fun a b => a.date ≤ b.date) := by
    refine List.Pairwise.imp_of_mem ?_ hpw
    intro a b ha hb hab
    exact hab ((hloc a ha).trans (hloc b hb).symm)
  exact pairwise_date_le_getLast _ hpw' h

/-- A small concrete dataset used to witness the theorems with hypotheses. -/
def sample_df : List Row :=
  [⟨"India", "IND", 1, 10, 5, 2, 0, 1, 3⟩,
   ⟨"India", "IND", 3, 20, 8, 4, 1, 2, 4⟩,
   ⟨"World", "OWID_WRL", 2, 99, 50, 20, 5, 3, 9⟩]

theorem sample_filtered_ne_nil : filtered_df sample_df "India" 0 5 ≠ [] := by
  decide

/-- C2 witness: on a concrete dataset with monotone dates per location,
the date of the first Indian row is bounded by the date of the latest
row selected from the filtered table. -/
theorem latest_data_max_date_witness :
    (⟨"India", "IND", 1, 10, 5, 2, 0, 1, 3⟩ : Row).date ≤
      (latest_data (filtered_df sample_df "India" 0 5) sample_filtered_ne_nil).date :=
  (latest_data_max_date sample_df "India" 0 5 (by decide)
    sample_filtered_ne_nil).2 _ (by decide)

/-- `subset_df` (`app.py` lines 154-157): rows with date at most
`end_date` whose location is not a non-country aggregate.  Note the
code applies only the upper bound of the window; `start_date` is not
used here. -/
def subset_df (df : List Row) (end_date : Nat) : List Row :=
  df.filter (fun r =>
    decide (r.date ≤ end_date) && !(non_country_aggregates.contains r.location))

/-- `groupby('location').tail(1)` on an ordered table: keep each row
whose location does not occur again later, i.e. the last row of every
location group. -/
def last_per_location : List Row → List Row
  | [] => []
  | r :: rest =>
    if rest.any (fun s => s.location == r.location) then last_per_location rest
    else r :: last_per_location rest

/-- `sort_values('date')`: order of rows with equal dates is not fixed by
pandas, so any sort by date embeds it; an insertion sort is used. -/
def sort_values_date (l : List Row) : List Row :=
  List.insertionSort (fun a b => a.date ≤ b.date) l

/-- `latest_country_data` (`app.py` line 159):
`subset_df.sort_values('date').groupby('location').tail(1)`. -/
def latest_country_data (df : List Row) (end_date : Nat) : List Row :=
  last_per_location (sort_values_date (subset_df df end_date))

/-- `top_10` (`app.py` line 162):
`latest_country_data.nlargest(10, 'total_vaccinations')`, i.e. sort
descending by total vaccinations and take the first 10 rows. -/
def top_10 (df : List Row) (end_date : Nat) : List Row :=
  (List.insertionSort (fun a b => b.total_vaccinations ≤ a.total_vaccinations)
    (latest_country_data df end_date)).take 10

theorem mem_subset_df (df : List Row) (e : Nat) (r : Row) :
    r ∈ subset_df df e ↔ r ∈ df ∧ r.date ≤ e ∧ r.location ∉ non_country_aggregates := by
  unfold subset_df
  simp [List.mem_filter]

theorem last_per_location_subset {L : List Row} {r : Row} :
    r ∈ last_per_location L → r ∈ L := by
  induction L with
  | nil => simp [last_per_location]
  | cons x xs ih =>
    unfold last_per_location
    by_cases hx : xs.any (fun s => s.location == x.location)
    · rw [if_pos hx]
      intro hr
      exact List.mem_cons_of_mem _ (ih hr)
    · rw [if_neg hx]
      intro hr
      rcases List.mem_cons.mp hr with rfl | hr'
      · exact List.mem_cons_self _ _
      · exact List.mem_cons_of_mem _ (ih hr')

theorem last_per_location_max {L : List Row}
    (hsorted : L.Pairwise (fun a b => a.date ≤ b.date)) :
    ∀ r ∈ last_per_location L, ∀ s ∈ L, s.location = r.location → s.date ≤ r.date := by
  induction L with
  | nil => simp [last_per_location]
  | cons x xs ih =>
    intro r hr s hs hloc
    have hhead : ∀ b ∈ xs, x.date ≤ b.date := (List.pairwise_cons.mp hsorted).1
    have htail : xs.Pairwise (fun a b => a.date ≤ b.date) := (List.pairwise_cons.mp hsorted).2
    unfold last_per_location at hr
    by_cases hx : xs.any (fun s => s.location == x.location)
    · rw [if_pos hx] at hr
      rcases List.mem_cons.mp hs with rfl | hs'
      · exact hhead r (last_per_location_subset hr)
      · exact ih htail r hr s hs' hloc
    · rw [if_neg hx] at hr
      rcases List.mem_cons.mp hr with rfl | hr'
      · rcases List.mem_cons.mp hs with rfl | hs'
        · exact le_refl _
        · exact absurd (List.any_eq_true.mpr ⟨s, hs', by simp [hloc]⟩) hx
      · rcases List.mem_cons.mp hs with rfl | hs'
        · exact hhead r (last_per_location_subset hr')
        · exact ih htail r hr' s hs' hloc

theorem last_per_location_covers {L : List Row} :
    ∀ s ∈ L, ∃ r ∈ last_per_location L, r.location = s.location := by
  induction L with
  | nil => simp
  | cons x xs ih =>
    intro s hs
    unfold last_per_location
    by_cases hx : xs.any (fun t => t.location == x.location)
    · rw [if_pos hx]
      rcases List.mem_cons.mp hs with rfl | hs'
      · obtain ⟨t, ht, htloc⟩ := List.any_eq_true.mp hx
        obtain ⟨r, hr, hrloc⟩ := ih t ht
        exact ⟨r, hr, hrloc.trans (by simpa using htloc)⟩
      · exact ih s hs'
    · rw [if_neg hx]
      rcases List.mem_cons.mp hs with rfl | hs'
      · exact ⟨s, List.mem_cons_self _ _, rfl⟩
      · obtain ⟨r, hr, hrloc⟩ := ih s hs'
        exact ⟨r, List.mem_cons_of_mem _ hr, hrloc⟩

instance : IsTotal Row (fun a b => a.date ≤ b.date) :=
  ⟨fun a b => Nat.le_total a.date b.date⟩

instance : IsTrans Row (fun a b => a.date ≤ b.date) :=
  ⟨fun _ _ _ hab hbc => Nat.le_trans hab hbc⟩

instance : IsTotal Row (fun a b => b.total_vaccinations ≤ a.total_vaccinations) :=
  ⟨fun a b => Int.le_total b.total_vaccinations a.total_vaccinations⟩

instance : IsTrans Row (fun a b => b.total_vaccinations ≤ a.total_vaccinations) :=
  ⟨fun _ _ _ hab hbc => Int.le_trans hbc hab⟩

theorem sort_values_date_sorted (l : List Row) :
    (sort_values_date l).Pairwise (fun a b => a.date ≤ b.date) :=
  List.sorted_insertionSort _ l

theorem sort_values_date_perm (l : List Row) : (sort_values_date l).Perm l :=
  List.perm_insertionSort _ l

/-- C4 (amended): in the global view the record selected for each
location is that location's row of maximum date among the rows with
date at most `end_date`; the lower bound `start_date` of the window is
not applied by the code. -/
theorem latest_country_data_latest_per_location (df : List Row) (e : Nat) :
    (∀ r ∈ latest_country_data df e,
        (r ∈ df ∧ r.date ≤ e ∧ r.location ∉ non_country_aggregates) ∧
        ∀ s ∈ df, s.location = r.location → s.date ≤ e → s.date ≤ r.date) ∧
    (∀ s ∈ df, s.date ≤ e → s.location ∉ non_country_aggregates →
        ∃ r ∈ latest_country_data df e, r.location = s.location) := by
  have hperm := sort_values_date_perm (subset_df df e)
  have hsorted := sort_values_date_sorted (subset_df df e)
  constructor
  · intro r hr
    have hrL : r ∈ sort_values_date (subset_df df e) := last_per_location_subset hr
    have hrS : r ∈ subset_df df e := hperm.mem_iff.mp hrL
    have hrP := (mem_subset_df df e r).mp hrS
    refine ⟨hrP, ?_⟩
    intro s hs hloc hdate
    have hsS : s ∈ subset_df df e :=
      (mem_subset_df df e s).mpr ⟨hs, hdate, by rw [hloc]; exact hrP.2.2⟩
    have hsL : s ∈ sort_values_date (subset_df df e) := hperm.mem_iff.mpr hsS
    exact last_per_location_max hsorted r hr s hsL hloc
  · intro s hs hdate hagg
    have hsS : s ∈ subset_df df e := (mem_subset_df df e s).mpr ⟨hs, hdate, hagg⟩
    have hsL : s ∈ sort_values_date (subset_df df e) := hperm.mem_iff.mpr hsS
    exact last_per_location_covers s hsL

/-- C4 counterexample: with the date window [3, 10] and a dataset whose
single French row is dated 2, the global view still selects that row,
whose date lies strictly before the window's start date 3, refuting the
claim that every selected record's date lies inside the window. -/
theorem latest_country_data_outside_window :
    latest_country_data [⟨"France", "FRA", 2, 7, 3, 1, 0, 1, 1⟩] 10 =
      [⟨"France", "FRA", 2, 7, 3, 1, 0, 1, 1⟩] ∧
    ¬ (3 ≤ (⟨"France", "FRA", 2, 7, 3, 1, 0, 1, 1⟩ : Row).date) := by
  constructor
  · rfl
  · decide

/-- C3: the top-10 ranking has at most 10 entries, is sorted descending
by total vaccinations, and draws its rows from the per-country latest
data. -/
theorem top_10_spec (df : List Row) (e : Nat) :
    (top_10 df e).length ≤ 10 ∧
    (top_10 df e).Pairwise
      (fun a b => b.total_vaccinations ≤ a.total_vaccinations) ∧
    ∀ r ∈ top_10 df e, r ∈ latest_country_data df e := by
  refine ⟨?_, ?_, ?_⟩
  · unfold top_10
    rw [List.length_take]
    exact min_le_left _ _
  · unfold top_10
    exact (List.sorted_insertionSort _ _).sublist (List.take_sublist _ _)
  · intro r hr
    unfold top_10 at hr
    have := (List.take_sublist 10 _).mem hr
    exact (List.perm_insertionSort _ _).mem_iff.mp this

/-- C3 witness: on the concrete dataset the single country row is in the
top-10 and in the per-country latest data. -/
theorem top_10_spec_witness :
    (⟨"India", "IND", 3, 20, 8, 4, 1, 2, 4⟩ : Row) ∈ top_10 sample_df 10 ∧
    (⟨"India", "IND", 3, 20, 8, 4, 1, 2, 4⟩ : Row) ∈ latest_country_data sample_df 10 :=
  ⟨by decide, (top_10_spec sample_df 10).2.2 _ (by decide)⟩

/-- C4 witness: on the concrete dataset the selected Indian record comes
from the dataset, respects the end date, is no aggregate, and dominates
the date-1 row of the same location. -/
theorem latest_country_data_witness :
    ((⟨"India", "IND", 3, 20, 8, 4, 1, 2, 4⟩ : Row) ∈ sample_df ∧
      (⟨"India", "IND", 3, 20, 8, 4, 1, 2, 4⟩ : Row).date ≤ 10 ∧
      (⟨"India", "IND", 3, 20, 8, 4, 1, 2, 4⟩ : Row).location ∉ non_country_aggregates) ∧
    (⟨"India", "IND", 1, 10, 5, 2, 0, 1, 3⟩ : Row).date ≤
      (⟨"India", "IND", 3, 20, 8, 4, 1, 2, 4⟩ : Row).date :=
  ⟨((latest_country_data_latest_per_location sample_df 10).1 _ (by decide)).1,
   ((latest_country_data_latest_per_location sample_df 10).1
      (⟨"India", "IND", 3, 20, 8, 4, 1, 2, 4⟩ : Row) (by decide)).2
      (⟨"India", "IND", 1, 10, 5, 2, 0, 1, 3⟩ : Row) (by decide) (by decide) (by decide)⟩

/-- A record of the long-form table produced by `melt` (`app.py` line
133): the id column `location`, the variable column `Metric`, the value
column `Count`. -/
structure MeltRec where
  location : String
  metric_name : String
  metric_count : Int
deriving DecidableEq, Repr

/-- `melt(id_vars='location', var_name='Metric', value_name='Count')`
over the two columns `people_vaccinated` and `people_fully_vaccinated`
(`app.py` lines 129-133): one record per (row, value column), variable
blocks in column order. -/
def melt_comparison (rows : List Row) : List MeltRec :=
  rows.map (fun r => ⟨r.location, "people_vaccinated", r.people_vaccinated⟩) ++
  rows.map (fun r => ⟨r.location, "people_fully_vaccinated", r.people_fully_vaccinated⟩)

/-- C7: melting the two count columns into long form yields twice as many
records as input rows; in particular a single latest row melts into
exactly 2 records. -/
theorem melt_comparison_length (rows : List Row) :
    (melt_comparison rows).length = 2 * rows.length ∧
    ∀ r : Row, (melt_comparison [r]).length = 2 := by
  constructor
  · unfold melt_comparison
    rw [List.length_append, List.length_map, List.length_map]
    omega
  · intro r
    rfl

/-- The argument of `st.progress` (`app.py` line 96):
`min(coverage / 100, 1.0)`. -/
def st_progress_arg (coverage : Rat) : Rat := min (coverage / 100) 1

/-- The key metrics rendered after a non-empty filter (`app.py` lines
79-96): fields of `latest_data` plus the progress-bar argument. -/
structure Metrics where
  total_vaccinations : Int
  people_fully_vaccinated : Int
  total_boosters : Int
  coverage : Rat
  progress_value : Rat
deriving DecidableEq, Repr

/-- Outcome of the main page after filtering (`app.py` lines 74-143):
either the empty-filter warning with `st.stop()`, or the rendered
report (key metrics and the melted comparison table). -/
inductive RunResult where
  | empty_warning : RunResult
  | report : Metrics → List MeltRec → RunResult
deriving DecidableEq, Repr

/-- The main page flow (`app.py` lines 62-143): filter, halt with a
warning when empty, otherwise compute the key metrics from the last row
and the melted comparison table. -/
def run_main (df : List Row) (selected_option : String)
    (start_date end_date : Nat) : RunResult :=
  match (filtered_df df (location_to_filter selected_option) start_date end_date).getLast? with
  | none => .empty_warning
  | some latest =>
      .report
        { total_vaccinations := latest.total_vaccinations
          people_fully_vaccinated := latest.people_fully_vaccinated
          total_boosters := latest.total_boosters
          coverage := latest.people_fully_vaccinated_per_hundred
          progress_value := st_progress_arg latest.people_fully_vaccinated_per_hundred }
        (melt_comparison [latest])

/-- C5: the main page halts with the warning exactly when the filter
result is empty; in that case no metrics or charts are produced, and on
a non-empty filter result the report is produced instead. -/
theorem run_main_empty_warning (df : List Row) (selected_option : String)
    (s e : Nat) :
    run_main df selected_option s e = RunResult.empty_warning ↔
      filtered_df df (location_to_filter selected_option) s e = [] := by
  unfold run_main
  rcases h : (filtered_df df (location_to_filter selected_option) s e).getLast? with _ | latest
  · simp [List.getLast?_eq_none_iff.mp h, h]
  · simp only [h]
    constructor
    · intro hcontra
      exact absurd hcontra (by simp)
    · intro hnil
      rw [hnil] at h
      simp at h

/-- C9: every report produced by the main page carries as progress-bar
argument `min(coverage / 100, 1)` for its coverage value, which never
exceeds 1. -/
theorem progress_value_le_one (df : List Row) (selected_option : String)
    (s e : Nat) (m : Metrics) (c : List MeltRec)
    (h : run_main df selected_option s e = RunResult.report m c) :
    m.progress_value = st_progress_arg m.coverage ∧ m.progress_value ≤ 1 := by
  unfold run_main at h
  split at h
  · exact absurd h (by simp)
  · simp only [RunResult.report.injEq] at h
    obtain ⟨hm, _⟩ := h
    subst hm
    exact ⟨rfl, min_le_right _ _⟩

/-- C9 witness: a concrete non-empty run produces a report whose
progress value is the clamp of its coverage and is at most 1. -/
theorem progress_value_le_one_witness :
    run_main sample_df "India" 0 5 =
      RunResult.report
        { total_vaccinations := 20, people_fully_vaccinated := 4,
          total_boosters := 1, coverage := 2,
          progress_value := st_progress_arg 2 }
        (melt_comparison [⟨"India", "IND", 3, 20, 8, 4, 1, 2, 4⟩]) ∧
    (st_progress_arg 2 : Rat) ≤ 1 :=
  ⟨rfl,
   (progress_value_le_one sample_df "India" 0 5
      { total_vaccinations := 20, people_fully_vaccinated := 4,
        total_boosters := 1, coverage := 2,
        progress_value := st_progress_arg 2 }
      (melt_comparison [⟨"India", "IND", 3, 20, 8, 4, 1, 2, 4⟩]) rfl).2⟩

/-- The state of the data file as seen by `pd.read_parquet`
(`app.py` line 20): present with contents, absent (raising
FileNotFoundError), or failing with any other exception. -/
inductive FileState where
  | present : List Row → FileState
  | absent : FileState
  | other_failure : String → FileState
deriving DecidableEq, Repr

/-- Outcome of `load_data` (`app.py` lines 15-24): the loaded dataset, a
halt after `st.error` + `st.stop()`, or an exception that the function
does not catch. -/
inductive LoadResult where
  | loaded : List Row → LoadResult
  | halted_with_error : String → LoadResult
  | unhandled_exception : String → LoadResult
deriving DecidableEq, Repr

/-- `load_data` (`app.py` lines 15-24): read the data file; only
FileNotFoundError is caught, producing the user-visible error and a
halt; any other failure propagates. -/
def load_data : FileState → LoadResult
  | .present df => .loaded df
  | .absent => .halted_with_error
      "Data file not found. Please run the data preparation notebook first."
  | .other_failure msg => .unhandled_exception msg

/-- C6: an absent data file yields the user-visible error message and a
halt, a present file loads its contents, and the missing file is the
only error kind handled: any other failure propagates uncaught. -/
theorem load_data_spec :
    load_data FileState.absent = LoadResult.halted_with_error
      "Data file not found. Please run the data preparation notebook first." ∧
    (∀ df : List Row, load_data (FileState.present df) = LoadResult.loaded df) ∧
    (∀ msg : String,
      load_data (FileState.other_failure msg) = LoadResult.unhandled_exception msg) :=
  ⟨rfl, fun _ => rfl, fun _ => rfl⟩

/-- pandas `Series.unique`: the values in order of first appearance. -/
def unique_strings (l : List String) : List String :=
  l.foldl (fun acc a => if a ∈ acc then acc else acc ++ [a]) []

/-- `country_list` (`app.py` line 36): the dataset's unique locations,
minus the non-country aggregates, sorted. -/
def country_list (df : List Row) : List String :=
  List.insertionSort (fun a b : String => a ≤ b)
    ((unique_strings (df.map Row.location)).filter
      (fun loc => !(non_country_aggregates.contains loc)))

theorem mem_foldl_unique (l acc : List String) (x : String) :
    x ∈ l.foldl (fun acc a => if a ∈ acc then acc else acc ++ [a]) acc →
    x ∈ acc ∨ x ∈ l := by
  induction l generalizing acc with
  | nil =>
    intro h
    exact Or.inl h
  | cons a rest ih =>
    intro h
    simp only [List.foldl_cons] at h
    rcases ih _ h with hacc | hrest
    · by_cases ha : a ∈ acc
      · rw [if_pos ha] at hacc
        exact Or.inl hacc
      · rw [if_neg ha] at hacc
        rcases List.mem_append.mp hacc with h1 | h2
        · exact Or.inl h1
        · simp only [List.mem_singleton] at h2
          subst h2
          exact Or.inr (List.mem_cons_self _ _)
    · exact Or.inr (List.mem_cons_of_mem _ hrest)

theorem mem_unique_strings {l : List String} {x : String} :
    x ∈ unique_strings l → x ∈ l := by
  intro h
  rcases mem_foldl_unique l [] x h with h0 | h1
  · simp at h0
  · exact h1

/-- C8: neither the sidebar country list nor the global-view per-country
data contains a non-country aggregate name, and every location in them
is drawn from the dataset's locations minus the aggregate set. -/
theorem no_aggregates_in_views (df : List Row) (e : Nat) :
    (∀ loc ∈ country_list df,
        loc ∉ non_country_aggregates ∧ loc ∈ df.map Row.location) ∧
    (∀ r ∈ latest_country_data df e,
        r.location ∉ non_country_aggregates ∧ r.location ∈ df.map Row.location) := by
  constructor
  · intro loc hloc
    have hmem : loc ∈ (unique_strings (df.map Row.location)).filter
        (fun l => !(non_country_aggregates.contains l)) :=
      (List.perm_insertionSort _ _).mem_iff.mp hloc
    have hfm := List.mem_filter.mp hmem
    refine ⟨?_, mem_unique_strings hfm.1⟩
    simpa using hfm.2
  · intro r hr
    have hrS : r ∈ subset_df df e :=
      (sort_values_date_perm _).mem_iff.mp (last_per_location_subset hr)
    have hrP := (mem_subset_df df e r).mp hrS
    exact ⟨hrP.2.2, List.mem_map_of_mem Row.location hrP.1⟩

/-- C8 witness: on the concrete dataset, "India" is in the country list,
is not an aggregate, and is one of the dataset's locations. -/
theorem no_aggregates_in_views_witness :
    "India" ∈ country_list sample_df ∧
    "India" ∉ non_country_aggregates ∧
    "India" ∈ sample_df.map Row.location :=
  ⟨by decide, (no_aggregates_in_views sample_df 10).1 "India" (by decide)⟩

/-- A store of dataframes: pandas objects modelled as heap-allocated
frames, so that aliasing and mutation are explicit.  `df[mask]` and
`.copy()` allocate fresh frames; nothing in the filtering path writes
an existing frame. -/
structure PdStore where
  frames : List (List Row)
deriving DecidableEq, Repr

/-- Read the frame a reference points to. -/
def PdStore.read (s : PdStore) (i : Nat) : List Row := s.frames.getD i []

/-- Allocate a fresh frame and return its reference. -/
def PdStore.alloc (s : PdStore) (d : List Row) : PdStore × Nat :=
  (⟨s.frames ++ [d]⟩, s.frames.length)

/-- The filtering interaction (`app.py` lines 62-68) against the store:
the location mask plus `.copy()` allocates `filtered_df` as an
independent frame from the cached dataset at `df_ref`, and the date
mask allocates again and rebinds `filtered_df`. -/
def filter_interaction (s : PdStore) (df_ref : Nat) (loc : String)
    (start_date end_date : Nat) : PdStore × Nat :=
  let sel := (s.read df_ref).filter (fun r => decide (r.location = loc))
  let s1 := (s.alloc sel).1
  let fd_ref := (s.alloc sel).2
  let fd2 := (s1.read fd_ref).filter
    (fun r => decide (start_date ≤ r.date ∧ r.date ≤ end_date))
  ((s1.alloc fd2).1, (s1.alloc fd2).2)

theorem read_alloc_lt (s : PdStore) (d : List Row) (i : Nat)
    (h : i < s.frames.length) : (s.alloc d).1.read i = s.read i := by
  unfold PdStore.alloc PdStore.read
  simp only
  rw [List.getD_eq_getElem?_getD, List.getD_eq_getElem?_getD,
    List.getElem?_append_left h]

theorem read_alloc_new (s : PdStore) (d : List Row) :
    (s.alloc d).1.read (s.alloc d).2 = d := by
  unfold PdStore.alloc PdStore.read
  simp only
  rw [List.getD_eq_getElem?_getD, List.getElem?_concat_length]
  rfl

/-- C10: the location-and-date filtering reads but never writes the
cached dataset: after the interaction the frame at `df_ref` is
unchanged, and the frame the result refers to holds exactly
`filtered_df` of the cached dataset. -/
theorem filter_interaction_frames (s : PdStore) (df_ref : Nat) (loc : String)
    (sd ed : Nat) (h : df_ref < s.frames.length) :
    (filter_interaction s df_ref loc sd ed).1.read df_ref = s.read df_ref ∧
    (filter_interaction s df_ref loc sd ed).1.read
        (filter_interaction s df_ref loc sd ed).2 =
      filtered_df (s.read df_ref) loc sd ed := by
  unfold filter_interaction
  constructor
  · rw [read_alloc_lt, read_alloc_lt]
    · exact h
    · show df_ref < (s.frames ++ _).length
      rw [List.length_append]
      omega
  · rw [read_alloc_new, read_alloc_new]
    rfl

/-- C10 witness: a concrete store with one cached frame is left
unchanged by the filtering interaction. -/
theorem filter_interaction_frames_witness :
    (0 < (PdStore.mk [sample_df]).frames.length) ∧
    (filter_interaction ⟨[sample_df]⟩ 0 "India" 0 5).1.read 0 =
      (PdStore.mk [sample_df]).read 0 :=
  ⟨by decide, (filter_interaction_frames ⟨[sample_df]⟩ 0 "India" 0 5 (by decide)).1⟩
